import Mathlib

/-!
Verification development for the Painting-Progress repository.

The definitions below are shallow embeddings of the JavaScript source:
  - the free-text army-list parser, function parseArmyListText of
    src/public/app.js (second variant, lines 400-491);
  - the normalization-on-read pass inside readModels of src/server.js
    (lines 93-144), modelled per record;
  - the zod input schemas and route handlers of src/server.js and of the
    server variant src/unnamed/part_000.

JavaScript dynamic values are modelled by JPrim and JVal (objects and
arrays carry primitive fields: every field the code inspects is at most
one object deep, and a deeper value behaves like the opaque cases).
Non-integer numbers are represented by the opaque constructor jnonint,
which is never equal to an integer value, mirroring strict equality on
numbers for the comparisons the code performs.
-/

/-- Whitespace class of JavaScript regular expressions and of trim,
restricted to the ASCII characters that can occur here. -/
def jsWs (c : Char) : Bool :=
  c = ' ' || c = '\t' || c = '\n' || c = '\r' || c = '\x0b' || c = '\x0c'

/-- Trim of a character list, as String.prototype.trim. -/
def jsTrimL (cs : List Char) : List Char :=
  ((cs.dropWhile jsWs).reverse.dropWhile jsWs).reverse

/-- Split a character list at every newline character.  Together with the
per-line trim this models the split on the regular expression of an
optional carriage return followed by a newline: a carriage return left at
the end of a piece is removed by the trim. -/
def splitNL : List Char → List (List Char)
  | [] => [[]]
  | '\n' :: rest => [] :: splitNL rest
  | c :: rest =>
    match splitNL rest with
    | [] => [[c]]
    | l :: ls => (c :: l) :: ls

/-- Lines of the input as the parser sees them: split, trimmed, blank
lines removed (filter Boolean). -/
def linesOf (text : String) : List (List Char) :=
  ((splitNL text.toList).map jsTrimL).filter (fun l => !l.isEmpty)

/-- Matches the three lowercase or uppercase letters p, t, s followed by a
closing bracket at the very end of the line. -/
def ptsClose : List Char → Bool
  | [p, t, s, ']'] => p.toLower = 'p' && t.toLower = 't' && s.toLower = 's'
  | _ => false

/-- Matches an opening bracket, one or more digits, optional whitespace,
then pts and the closing bracket at the end of the line. -/
def bracketCore : List Char → Bool
  | '[' :: r =>
    let ds := r.takeWhile Char.isDigit
    !ds.isEmpty && ptsClose ((r.drop ds.length).dropWhile jsWs)
  | _ => false

/-- Tail of the army-name pattern: optional whitespace then the points
bracket, anchored at the end. -/
def looseTail (cs : List Char) : Bool :=
  bracketCore (cs.dropWhile jsWs)

/-- Tail of the entry-header patterns: at least one whitespace character
then the points bracket, anchored at the end. -/
def tightTail (cs : List Char) : Bool :=
  !(cs.takeWhile jsWs).isEmpty && bracketCore (cs.dropWhile jsWs)

/-- Helper returning the length of the shortest non-empty group of
dot-matchable characters from the start such that the tail matcher
accepts the remaining suffix — the semantics of a lazy group followed by
an anchored tail. -/
def lazyGroupAux (tailM : List Char → Bool) : Nat → List Char → Option Nat
  | _, [] => none
  | i, c :: rest =>
    if c = '\n' || c = '\r' then none
    else if tailM rest then some (i + 1)
    else lazyGroupAux tailM (i + 1) rest

/-- Length of the lazy group anchored at the start of the line. -/
def lazyGroup (tailM : List Char → Bool) (cs : List Char) : Option Nat :=
  lazyGroupAux tailM 0 cs

/-- Digits of a decimal literal to an integer, as Number on a digit
string. -/
def digitsToInt (ds : List Char) : Int :=
  Int.ofNat (ds.foldl (fun a c => a * 10 + (c.toNat - 48)) 0)

/-- Army-name pattern of app.js line 408: a lazy group, optional
whitespace and the points bracket spanning the whole line.  Returns the
raw captured group. -/
def jsArmyMatch (cs : List Char) : Option (List Char) :=
  (lazyGroup looseTail cs).map (cs.take ·)

/-- No-count entry-header pattern of app.js line 443: a lazy group, at
least one whitespace character and the points bracket spanning the whole
line. -/
def jsSingleMatch (cs : List Char) : Option (List Char) :=
  (lazyGroup tightTail cs).map (cs.take ·)

/-- Descending list n, n-1, ..., 1 used to model greedy backtracking of a
whitespace run. -/
def downTo1 (n : Nat) : List Nat :=
  (List.range n).map (fun i => n - i)

/-- Explicit-count entry-header pattern of app.js line 442: digits, at
least one whitespace character, a lazy group, then the tight bracket
tail.  The digit run is maximal; the whitespace run after it is tried
greedily from longest to shortest as a backtracking engine would. -/
def jsWithCountMatch (cs : List Char) : Option (Int × List Char) :=
  let ds := cs.takeWhile Char.isDigit
  if ds.isEmpty then none
  else
    let rest := cs.drop ds.length
    let wsLen := (rest.takeWhile jsWs).length
    (downTo1 wsLen).findSome? (fun k =>
      (lazyGroup tightTail (rest.drop k)).map (fun n =>
        (digitsToInt ds, (rest.drop k).take n)))

/-- Tail of the section-header pattern: optional whitespace, the points
bracket, optional whitespace and two plus signs at the end of the line. -/
def sectionTailB (cs : List Char) : Bool :=
  match cs.dropWhile jsWs with
  | '[' :: r =>
    let ds := r.takeWhile Char.isDigit
    !ds.isEmpty &&
      (match (r.drop ds.length).dropWhile jsWs with
       | p :: t :: s :: ']' :: rest =>
         p.toLower = 'p' && t.toLower = 't' && s.toLower = 's' &&
           (rest.dropWhile jsWs) = ['+', '+']
       | _ => false)
  | _ => false

/-- Section-header pattern of app.js line 429: two plus signs, optional
whitespace tried greedily, a lazy group and the section tail. -/
def jsSectionMatch : List Char → Option (List Char)
  | '+' :: '+' :: rest =>
    let wsLen := (rest.takeWhile jsWs).length
    ((List.range (wsLen + 1)).map (fun i => wsLen - i)).findSome? (fun k =>
      (lazyGroup sectionTailB (rest.drop k)).map ((rest.drop k).take ·))
  | _ => none

/-- Containment of one character list in another, as an unanchored regular
expression test for a fixed word. -/
def hasInfixL (needle : List Char) : List Char → Bool
  | [] => needle.isEmpty
  | c :: rest => needle.isPrefixOf (c :: rest) || hasInfixL needle rest

/-- Word characters of JavaScript regular expressions. -/
def isWordChar (c : Char) : Bool :=
  c.isAlpha || c.isDigit || c = '_'

/-- True when the list is empty or starts with a non-word character: the
right word boundary. -/
def nonWordAfter : List Char → Bool
  | [] => true
  | d :: _ => !isWordChar d

/-- Scan for the word banner delimited by word boundaries on both sides. -/
def bannerWordAux (prevWord : Bool) : List Char → Bool
  | [] => false
  | c :: rest =>
    (!prevWord && ("banner".toList.isPrefixOf (c :: rest)) &&
      nonWordAfter ((c :: rest).drop 6)) || bannerWordAux (isWordChar c) rest

/-- Word-bounded banner test of the banner-bearer keyword pattern. -/
def bannerWordB (cs : List Char) : Bool :=
  bannerWordAux false cs

/-- Lowercase a character list, as toLowerCase on the ASCII input. -/
def lowerL (cs : List Char) : List Char :=
  cs.map Char.toLower

/-- Musician keyword pattern of app.js line 478. -/
def musicianKeyword (low : List Char) : Bool :=
  hasInfixL "musician".toList low

/-- Banner-bearer keyword pattern of app.js line 479. -/
def bannerKeyword (low : List Char) : Bool :=
  hasInfixL "standard bearer".toList low ||
  hasInfixL "banner bearer".toList low ||
  hasInfixL "battle standard bearer".toList low ||
  bannerWordB low

/-- Champion keyword pattern of app.js line 480. -/
def championKeyword (low : List Char) : Bool :=
  hasInfixL "champion".toList low ||
  hasInfixL "preceptor".toList low ||
  hasInfixL "sergeant".toList low

/-- Removal of one leading dash and the whitespace after it, the replace
call of app.js line 471. -/
def stripDashWs : List Char → List Char
  | '-' :: rest => rest.dropWhile jsWs
  | cs => cs

/-- Prefix test on character lists, as String.prototype.startsWith. -/
def startsWithL (pre cs : List Char) : Bool :=
  pre.isPrefixOf cs

/-- Divider-line test of app.js line 437. -/
def isDividerL (l : List Char) : Bool :=
  startsWithL "===".toList l || startsWithL "---".toList l ||
    startsWithL "-- ".toList l

/-- Command composition: the three upgrade counts. -/
structure CommandCounts where
  champion : Int
  musician : Int
  bannerBearer : Int
deriving DecidableEq, Repr

/-- All-zero command composition. -/
def zeroCommand : CommandCounts := ⟨0, 0, 0⟩

/-- Draft entry produced by the parser, app.js lines 445-467. -/
structure DraftEntry where
  category : String
  name : String
  modelCount : Int
  details : String
  command : CommandCounts
deriving DecidableEq, Repr

/-- Mutable state of the line loop of parseArmyListText. -/
structure ParseState where
  current : Option DraftEntry
  currentCategory : String
  units : List DraftEntry
deriving DecidableEq, Repr

/-- Result of parseArmyListText. -/
structure ParseResult where
  parsedArmy : String
  units : List DraftEntry
deriving DecidableEq, Repr

/-- Flush of the in-progress entry, app.js lines 419-426: a Character
entry has its command composition forced to all-zero before being pushed. -/
def flushCurrent (st : ParseState) : ParseState :=
  match st.current with
  | none => st
  | some d =>
    let d' := if d.category = "Character" then { d with command := zeroCommand } else d
    { st with current := none, units := st.units ++ [d'] }

/-- Detail-line branch of the loop, app.js lines 470-482: the line is
appended to the details of the in-progress entry with its leading dash
stripped, and for a non-Character entry the keyword scans may set command
counts to one. -/
def detailStep (st : ParseState) (line : List Char) : ParseState :=
  match st.current with
  | none => st
  | some d =>
    if startsWithL "-".toList line then
      let clean := jsTrimL (stripDashWs line)
      let d1 :=
        if clean.isEmpty then d
        else if d.details = "" then { d with details := String.mk clean }
        else { d with details := d.details ++ "\n" ++ String.mk clean }
      let d2 :=
        if d1.category ≠ "Character" then
          let low := lowerL line
          let da := if musicianKeyword low then { d1 with command := { d1.command with musician := 1 } } else d1
          let db := if bannerKeyword low then { da with command := { da.command with bannerBearer := 1 } } else da
          if championKeyword low then { db with command := { db.command with champion := 1 } } else db
        else d1
      { st with current := some d2 }
    else st

/-- One iteration of the line loop of parseArmyListText, app.js lines
428-483, with the branches in source order: section header, divider,
explicit-count header, no-count header (skipped when its name equals the
parsed army name), then the detail branch. -/
def processLine (parsedArmy : String) (st : ParseState) (line : List Char) : ParseState :=
  match jsSectionMatch line with
  | some g =>
    let st1 := flushCurrent st
    { st1 with currentCategory :=
        if hasInfixL "character".toList (lowerL g) then "Character" else "Unit" }
  | none =>
    if isDividerL line then flushCurrent st
    else
      match jsWithCountMatch line with
      | some (n, nm) =>
        let st1 := flushCurrent st
        { st1 with current := some (DraftEntry.mk st1.currentCategory
            (String.mk (jsTrimL nm)) n "" zeroCommand) }
      | none =>
        match jsSingleMatch line with
        | some g =>
          if startsWithL "[".toList line then detailStep st line
          else if String.mk (jsTrimL g) = parsedArmy then st
          else
            let st1 := flushCurrent st
            { st1 with current := some (DraftEntry.mk st1.currentCategory
                (String.mk (jsTrimL g)) 1 "" zeroCommand) }
        | none => detailStep st line

/-- Army-name scan of app.js lines 406-413: the first line matching the
army pattern that does not start with two plus signs or two dashes is
captured, trimmed, and the scan stops. -/
def armyScan (lines : List (List Char)) : String :=
  match lines.findSome? (fun l =>
    match jsArmyMatch l with
    | some g =>
      if startsWithL "++".toList l || startsWithL "--".toList l then none
      else some (String.mk (jsTrimL g))
    | none => none) with
  | some s => s
  | none => ""

/-- The list parser parseArmyListText of app.js lines 400-491. -/
def parseArmyListText (text : String) : ParseResult :=
  let lines := linesOf text
  let parsedArmy := armyScan lines
  let stFinal := flushCurrent (lines.foldl (processLine parsedArmy) ⟨none, "Unit", []⟩)
  ⟨parsedArmy, stFinal.units⟩

/-- Primitive JavaScript values. -/
inductive JPrim where
  | undefV
  | jnull
  | jbool (b : Bool)
  | jint (n : Int)
  | jnonint (t : Nat)
  | jstr (s : String)
deriving DecidableEq, Repr

/-- JavaScript values as the code inspects them: a primitive, an object
with primitive fields, or an array of primitives. -/
inductive JVal where
  | prim (p : JPrim)
  | jobj (fields : List (String × JPrim))
  | jarr (elems : List JPrim)
deriving DecidableEq, Repr

/-- Read a named field of a value; any non-object value and any absent
field give undefined, as JavaScript property access combined with
optional chaining. -/
def getFieldP (fs : List (String × JPrim)) (k : String) : JPrim :=
  match fs.find? (fun kv => kv.1 == k) with
  | some kv => kv.2
  | none => .undefV

/-- Read a named field of an arbitrary value. -/
def jGet (v : JVal) (k : String) : JPrim :=
  match v with
  | .jobj fs => getFieldP fs k
  | _ => .undefV

/-- A record as it sits in the JSON data file, before normalization: each
field the normalization inspects, as an arbitrary JavaScript value. -/
structure RawModel where
  id : JVal := .prim .undefV
  name : JVal := .prim .undefV
  faction : JVal := .prim .undefV
  modelCount : JVal := .prim .undefV
  command : JVal := .prim .undefV
  state : JVal := .prim .undefV
  imageUrl : JVal := .prim .undefV
  createdAt : JVal := .prim .undefV
  updatedAt : JVal := .prim .undefV
deriving DecidableEq, Repr

/-- An element of the parsed JSON array: either not an object, which the
code replaces by an empty object, or an object.  An array element behaves
exactly like an object with no fields and is covered by an all-undefined
RawModel. -/
inductive RawItem where
  | notObj (p : JPrim)
  | obj (m : RawModel)
deriving DecidableEq, Repr

/-- The raw model with every field undefined. -/
def emptyRawModel : RawModel := {}

/-- Fields of an item as the normalization reads them, server.js line
102: a non-object item is replaced by an empty object. -/
def rawFieldsOf : RawItem → RawModel
  | .notObj _ => emptyRawModel
  | .obj m => m

/-- Canonical stored record.  The optional category and progressCount
fields model keys that a record object may carry in the data file even
though no code of the repository ever writes them; every producer below
leaves them absent. -/
structure StoredRecord where
  id : String
  name : String
  faction : String
  modelCount : Int
  command : CommandCounts
  state : String
  imageUrl : String
  createdAt : String
  updatedAt : String
  category : Option String := none
  progressCount : Option Int := none
deriving DecidableEq, Repr

/-- The ordered painting states, server.js line 18. -/
def statesList : List String :=
  ["Unbuilt", "Build", "Sprayed", "Undercoated", "Painted"]

/-- Normalized id, server.js line 112: a non-empty string is kept,
anything else is replaced by a fresh generated id. -/
def safeId (fresh : String) : JVal → String
  | .prim (.jstr s) => if s = "" then fresh else s
  | _ => fresh

/-- Normalized name, server.js line 113. -/
def safeName : JVal → String
  | .prim (.jstr s) => if s = "" then "Unknown Unit" else s
  | _ => "Unknown Unit"

/-- Normalized plain string field, server.js lines 114 and 118: any
string is kept, anything else becomes the empty string. -/
def safeStr : JVal → String
  | .prim (.jstr s) => s
  | _ => ""

/-- Normalized model count, server.js line 115: a positive integer is
kept, anything else becomes one. -/
def safeCount : JVal → Int
  | .prim (.jint n) => if 0 < n then n else 1
  | _ => 1

/-- Normalized state, server.js line 103: a member of the state list is
kept, anything else becomes the initial state. -/
def safeStateV : JVal → String
  | .prim (.jstr s) => if statesList.contains s then s else "Unbuilt"
  | _ => "Unbuilt"

/-- Normalized timestamp, server.js lines 119-120: any string is kept,
anything else becomes the current time. -/
def safeTime (now : String) : JVal → String
  | .prim (.jstr s) => s
  | _ => now

/-- Normalized command count, server.js lines 105-108: a non-negative
integer is kept, anything else becomes one. -/
def safeCmdField : JPrim → Int
  | .jint n => if 0 ≤ n then n else 1
  | _ => 1

/-- Normalized command composition, server.js lines 104-109. -/
def safeCommandOf (cmd : JVal) : CommandCounts :=
  ⟨safeCmdField (jGet cmd "champion"),
   safeCmdField (jGet cmd "musician"),
   safeCmdField (jGet cmd "bannerBearer")⟩

/-- Opening brace character. -/
def lbrace : Char := Char.ofNat 123

/-- Closing brace character. -/
def rbrace : Char := Char.ofNat 125

/-- String escaping for JSON serialization, restricted to the quote and
backslash characters; other characters are emitted as they are. -/
def escapeChar (c : Char) : List Char :=
  if c = '"' then ['\\', '"'] else if c = '\\' then ['\\', '\\'] else [c]

/-- Quoted JSON string. -/
def quoteStr (s : String) : List Char :=
  '"' :: s.toList.foldr (fun c acc => escapeChar c ++ acc) ['"']

/-- Decimal characters of an integer. -/
def intChars (n : Int) : List Char := (toString n).toList

/-- JSON rendering of a primitive; none is the undefined result.  The
rendering of the opaque non-integer number is a placeholder that is
distinct from every integer rendering, all that its uses compare it
against. -/
def primChars : JPrim → Option (List Char)
  | .undefV => none
  | .jnull => some "null".toList
  | .jbool b => some (if b then "true".toList else "false".toList)
  | .jint n => some (intChars n)
  | .jnonint t => some ('#' :: intChars (Int.ofNat t))
  | .jstr s => some (quoteStr s)

/-- Comma-separated concatenation. -/
def joinComma : List (List Char) → List Char
  | [] => []
  | [x] => x
  | x :: xs => x ++ ',' :: joinComma xs

/-- JSON.stringify on the modelled values: fields bound to undefined are
omitted from objects, undefined array elements render as null, and a
top-level undefined gives no string at all. -/
def jsonStringify : JVal → Option (List Char)
  | .prim p => primChars p
  | .jobj fs => some (lbrace ::
      joinComma (fs.filterMap (fun kv =>
        (primChars kv.2).map (fun v => quoteStr kv.1 ++ ':' :: v))) ++ [rbrace])
  | .jarr xs => some ('[' ::
      joinComma (xs.map (fun p => (primChars p).getD "null".toList)) ++ [']'])

/-- A command composition as the object literal the code builds, in
insertion order champion, musician, bannerBearer. -/
def commandToJVal (c : CommandCounts) : JVal :=
  .jobj [("champion", .jint c.champion), ("musician", .jint c.musician),
         ("bannerBearer", .jint c.bannerBearer)]

/-- Normalization of one loaded record, the body of the map inside
readModels, server.js lines 101-133: the normalized record together with
this record's contribution to the hasChanges flag, which compares the id,
state, modelCount and faction fields and the JSON serialization of the
command field. -/
def repairRecordObj (fresh now : String) (m : RawModel) : StoredRecord × Bool :=
  let out : StoredRecord :=
    { id := safeId fresh m.id, name := safeName m.name, faction := safeStr m.faction,
      modelCount := safeCount m.modelCount, command := safeCommandOf m.command,
      state := safeStateV m.state, imageUrl := safeStr m.imageUrl,
      createdAt := safeTime now m.createdAt, updatedAt := safeTime now m.updatedAt }
  let changed :=
    decide (m.id ≠ .prim (.jstr out.id)) ||
    decide (m.state ≠ .prim (.jstr out.state)) ||
    decide (m.modelCount ≠ .prim (.jint out.modelCount)) ||
    decide (m.faction ≠ .prim (.jstr out.faction)) ||
    decide (jsonStringify (commandToJVal out.command) ≠ jsonStringify m.command)
  (out, changed)

/-- Normalization of one element of the parsed array, server.js lines
101-133, including the replacement of non-object items by an empty
object. -/
def repairRecord (fresh now : String) (x : RawItem) : StoredRecord × Bool :=
  repairRecordObj fresh now (rawFieldsOf x)

/-- A stored record as it reappears in the data file on the next load,
after the JSON write and read round trip: every field the normalization
wrote, as the corresponding JSON value. -/
def storedToRaw (r : StoredRecord) : RawItem :=
  .obj
    { id := .prim (.jstr r.id), name := .prim (.jstr r.name),
      faction := .prim (.jstr r.faction), modelCount := .prim (.jint r.modelCount),
      command := commandToJVal r.command, state := .prim (.jstr r.state),
      imageUrl := .prim (.jstr r.imageUrl), createdAt := .prim (.jstr r.createdAt),
      updatedAt := .prim (.jstr r.updatedAt) }

/-- Request body of a creation or import entry: the fields the frontend
sends.  The schema reads only the first five; category, details and
progressCount are unknown keys to it. -/
structure RawPayload where
  name : JVal := .prim .undefV
  faction : JVal := .prim .undefV
  modelCount : JVal := .prim .undefV
  command : JVal := .prim .undefV
  state : JVal := .prim .undefV
  category : JVal := .prim .undefV
  details : JVal := .prim .undefV
  progressCount : JVal := .prim .undefV
deriving DecidableEq, Repr

/-- Validated creation input, the parse result of modelInputSchema. -/
structure ModelInput where
  name : String
  faction : String
  modelCount : Int
  command : CommandCounts
  state : String
deriving DecidableEq, Repr

/-- Name rule of modelInputSchema, server.js line 39: a string, trimmed,
of length one to one hundred twenty. -/
def zodName : JVal → Option String
  | .prim (.jstr s) =>
    let t := String.mk (jsTrimL s.toList)
    if 1 ≤ t.length ∧ t.length ≤ 120 then some t else none
  | _ => none

/-- Faction rule, server.js line 40: optional with default empty, a
string, trimmed, of length at most one hundred twenty. -/
def zodFaction : JVal → Option String
  | .prim .undefV => some ""
  | .prim (.jstr s) =>
    let t := String.mk (jsTrimL s.toList)
    if t.length ≤ 120 then some t else none
  | _ => none

/-- Model-count rule, server.js line 41: an integer between one and five
hundred. -/
def zodCount : JVal → Option Int
  | .prim (.jint n) => if 1 ≤ n ∧ n ≤ 500 then some n else none
  | _ => none

/-- Command subfield rule, server.js lines 32-34: absent gives the
default, otherwise a non-negative integer. -/
def zodCmdField (dflt : Int) : JPrim → Option Int
  | .undefV => some dflt
  | .jint n => if 0 ≤ n then some n else none
  | _ => none

/-- Command rule, server.js lines 30-36 and 42: absent gives the default
composition, an object is validated field by field with unknown keys
stripped, anything else fails.  The default composition is a parameter
because the two server variants disagree on it. -/
def zodCommand (dflt : CommandCounts) : JVal → Option CommandCounts
  | .prim .undefV => some dflt
  | .jobj fs =>
    match zodCmdField dflt.champion (getFieldP fs "champion"),
          zodCmdField dflt.musician (getFieldP fs "musician"),
          zodCmdField dflt.bannerBearer (getFieldP fs "bannerBearer") with
    | some a, some b, some c => some ⟨a, b, c⟩
    | _, _, _ => none
  | _ => none

/-- State rule, server.js line 43: absent gives the initial state,
otherwise a member of the state list. -/
def zodState : JVal → Option String
  | .prim .undefV => some "Unbuilt"
  | .prim (.jstr s) => if statesList.contains s then some s else none
  | _ => none

/-- The full modelInputSchema, server.js lines 38-44: every field rule
must pass; unknown keys of the payload are stripped. -/
def zodModelInput (dflt : CommandCounts) (p : RawPayload) : Option ModelInput :=
  match zodName p.name, zodFaction p.faction, zodCount p.modelCount,
        zodCommand dflt p.command, zodState p.state with
  | some n, some f, some mc, some cmd, some st => some ⟨n, f, mc, cmd, st⟩
  | _, _, _, _, _ => none

/-- Command default of the server.js variant, lines 30-36. -/
def serverCommandDefault : CommandCounts := ⟨1, 1, 1⟩

/-- Command default of the src/unnamed/part_000 variant, lines 20-26. -/
def altCommandDefault : CommandCounts := ⟨0, 0, 0⟩

/-- Element-wise validation of an import array: all entries must pass,
as the zod array schema. -/
def validateEntries (dflt : CommandCounts) : List RawPayload → Option (List ModelInput)
  | [] => some []
  | p :: rest =>
    match zodModelInput dflt p, validateEntries dflt rest with
    | some i, some is => some (i :: is)
    | _, _ => none

/-- The importSchema of server.js line 46: an array of one to one
thousand entries, each passing modelInputSchema. -/
def validateImportList (dflt : CommandCounts) (body : List RawPayload) : Option (List ModelInput) :=
  if 1 ≤ body.length ∧ body.length ≤ 1000 then validateEntries dflt body else none

/-- The toStoredModel function, server.js lines 316-328. -/
def toStoredModel (id now : String) (inp : ModelInput) : StoredRecord :=
  { id := id, name := inp.name, faction := inp.faction,
    modelCount := inp.modelCount, command := inp.command, state := inp.state,
    imageUrl := "", createdAt := now, updatedAt := now }

/-- The stored record as the JSON object the code writes: the literal of
toStoredModel lists exactly nine keys, and the two optional fields appear
only when present. -/
def objOfStored (r : StoredRecord) : List (String × JVal) :=
  [("id", .prim (.jstr r.id)), ("name", .prim (.jstr r.name)),
   ("faction", .prim (.jstr r.faction)), ("modelCount", .prim (.jint r.modelCount)),
   ("command", commandToJVal r.command), ("state", .prim (.jstr r.state)),
   ("imageUrl", .prim (.jstr r.imageUrl)), ("createdAt", .prim (.jstr r.createdAt)),
   ("updatedAt", .prim (.jstr r.updatedAt))]
  ++ (match r.category with
      | some c => [("category", .prim (.jstr c))]
      | none => [])
  ++ (match r.progressCount with
      | some n => [("progressCount", .prim (.jint n))]
      | none => [])

/-- Outcome of the import route: the persisted list, the created records
and whether the request was accepted. -/
structure ImportOutcome where
  persisted : List StoredRecord
  created : List StoredRecord
  ok : Bool
deriving DecidableEq, Repr

/-- The import route, server.js lines 420-444: on schema failure the
request is rejected and nothing is written; on success every entry
becomes a stored record appended to the existing list. -/
def importRoute (store : List StoredRecord) (dflt : CommandCounts)
    (body : List RawPayload) (ids : Nat → String) (now : String) : ImportOutcome :=
  match validateImportList dflt body with
  | none => ⟨store, [], false⟩
  | some inputs =>
    let created := inputs.enum.map (fun pr => toStoredModel (ids pr.1) now pr.2)
    ⟨store ++ created, created, true⟩

/-- Body validation of the state route, server.js line 449: an object
whose state field is a member of the state list. -/
def zodStateBody (body : JVal) : Option String :=
  match body with
  | .jobj fs =>
    match getFieldP fs "state" with
    | .jstr s => if statesList.contains s then some s else none
    | _ => none
  | _ => none

/-- Outcome of the state route. -/
inductive PatchOutcome where
  | invalid
  | notFound (models : List StoredRecord)
  | ok (models : List StoredRecord) (updated : StoredRecord)
deriving DecidableEq, Repr

/-- Locate the first record with the given id and set its state and
updatedAt fields, server.js lines 455-461. -/
def patchList (s now id : String) : List StoredRecord → Option (List StoredRecord × StoredRecord)
  | [] => none
  | m :: rest =>
    if m.id = id then
      let u := { m with state := s, updatedAt := now }
      some (u :: rest, u)
    else
      (patchList s now id rest).map (fun pr => (m :: pr.1, pr.2))

/-- The state-mutation route, server.js lines 446-468 and identically
src/unnamed/part_000 lines 197-219: validate the body, find the record,
set its state unconditionally and persist. -/
def patchStateRoute (models : List StoredRecord) (id : String) (body : JVal)
    (now : String) : PatchOutcome :=
  match zodStateBody body with
  | none => .invalid
  | some s =>
    match patchList s now id models with
    | none => .notFound models
    | some pr => .ok pr.1 pr.2

/-- The value of Number applied to a form input string, restricted to the
canonical integer strings a number input produces; other strings are
represented by the opaque non-integer value. -/
def jsNumberOfString (s : String) : JPrim :=
  let t := String.mk (jsTrimL s.toList)
  if t = "" then .jint 0
  else
    match t.toInt? with
    | some n => .jint n
    | none => .jnonint 0

/-- Number applied to the value-or-one expression of the creation form,
app.js lines 520-522: an empty field is the only falsy string and yields
one. -/
def numberOrOne (s : String) : JPrim :=
  if s = "" then .jint 1 else jsNumberOfString s

/-- Command object built by the manual creation form, app.js lines
516-523: all-zero for a Character, otherwise each field from its input
with default one. -/
def buildManualCommand (category champVal musVal banVal : String) : JVal :=
  if category = "Character" then
    .jobj [("champion", .jint 0), ("musician", .jint 0), ("bannerBearer", .jint 0)]
  else
    .jobj [("champion", numberOrOne champVal), ("musician", numberOrOne musVal),
           ("bannerBearer", numberOrOne banVal)]

/-- Category shown by the frontend for a stored record, app.js line 343:
the category field if present and truthy, else Unit. -/
def displayCategory (r : StoredRecord) : String :=
  match r.category with
  | some s => if s = "" then "Unit" else s
  | none => "Unit"

/-- Import payload the frontend builds from one parsed draft entry,
app.js lines 566-574. -/
def draftToPayload (faction : String) (u : DraftEntry) : RawPayload :=
  { name := .prim (.jstr u.name), faction := .prim (.jstr faction),
    modelCount := .prim (.jint u.modelCount), command := commandToJVal u.command,
    state := .prim (.jstr "Unbuilt"), category := .prim (.jstr u.category),
    details := .prim (.jstr u.details), progressCount := .prim .undefV }

/-- Invariants every record produced by the normalization satisfies. -/
def GoodStored (r : StoredRecord) : Prop :=
  r.id ≠ "" ∧ r.state ∈ statesList ∧ 0 < r.modelCount ∧
  0 ≤ r.command.champion ∧ 0 ≤ r.command.musician ∧ 0 ≤ r.command.bannerBearer

/-- Every Character entry of a list has all-zero command composition. -/
def charZero (us : List DraftEntry) : Prop :=
  ∀ u ∈ us, u.category = "Character" → u.command = zeroCommand

/-- A record of the data file carrying the category and progressCount
keys a state-transition gate would need, as the part_000 variant, whose
readModels returns file contents verbatim, would serve it. -/
def c1Record : StoredRecord :=
  { id := "u1", name := "Spearmen", faction := "Empire", modelCount := 5,
    command := ⟨1, 1, 1⟩, state := "Unbuilt", imageUrl := "", createdAt := "t0",
    updatedAt := "t0", category := some "Unit", progressCount := some 3 }

/-- The record of c1Record after the state route has run. -/
def c1Patched : StoredRecord :=
  { c1Record with state := "Build", updatedAt := "t1" }

/-- A plain stored record used to exercise the state route. -/
def c1WitnessRecord : StoredRecord :=
  { id := "w1", name := "Archers", faction := "", modelCount := 10,
    command := ⟨0, 0, 0⟩, state := "Unbuilt", imageUrl := "", createdAt := "t0",
    updatedAt := "t0" }

/-- A loaded record whose name field is a number but whose checked fields
are all clean. -/
def c4Input : RawItem := .obj
  { id := .prim (.jstr "a1"), name := .prim (.jint 5), faction := .prim (.jstr ""),
    modelCount := .prim (.jint 2),
    command := .jobj [("champion", .jint 1), ("musician", .jint 1), ("bannerBearer", .jint 1)],
    state := .prim (.jstr "Build"), imageUrl := .prim (.jstr ""),
    createdAt := .prim (.jstr "t"), updatedAt := .prim (.jstr "t") }

/-- The creation request the frontend sends for a manually entered
Character, app.js lines 510-524. -/
def characterCreateRequest : RawPayload :=
  { name := .prim (.jstr "Magic Lord"), faction := .prim (.jstr "Empire"),
    modelCount := .prim (.jint 1),
    command := .jobj [("champion", .jint 0), ("musician", .jint 0), ("bannerBearer", .jint 0)],
    category := .prim (.jstr "Character"), details := .prim (.jstr "General") }

/-- The validated input of characterCreateRequest. -/
def magicLordInput : ModelInput := ⟨"Magic Lord", "Empire", 1, ⟨0, 0, 0⟩, "Unbuilt"⟩

/-- The parser scenario input of the specification. -/
def specScenarioInput : String :=
  "++ Characters [100 pts] ++\nMagic Lord [100 pts]\n- General\n++ Core [200 pts] ++\n5 Spearmen [80 pts]\n- Musician\n- Champion"

/-- The Spearmen entry the parser produces for the scenario. -/
def spearmenDraft : DraftEntry := ⟨"Unit", "Spearmen", 5, "Musician\nChampion", ⟨1, 1, 0⟩⟩

/-- The Magic Lord entry the scenario expects. -/
def magicLordDraft : DraftEntry := ⟨"Character", "Magic Lord", 1, "General", ⟨0, 0, 0⟩⟩

/-- The scenario input preceded by a genuine army-name line. -/
def armyHeadedScenarioInput : String :=
  "My Army [1000 pts]\n" ++ specScenarioInput

/-- A valid import entry. -/
def c5GoodEntry : RawPayload :=
  { name := .prim (.jstr "Spearmen"), modelCount := .prim (.jint 5) }

/-- An import entry whose model count is below the allowed range. -/
def c5BadEntry : RawPayload :=
  { name := .prim (.jstr "Ghouls"), modelCount := .prim (.jint 0) }

/-- A five-entry import batch whose third entry is invalid. -/
def c5Batch : List RawPayload :=
  [c5GoodEntry, c5GoodEntry, c5BadEntry, c5GoodEntry, c5GoodEntry]

/-- Text containing section markers, dividers and detail lines but no
entry-header line. -/
def c7WitnessText : String :=
  "hello world\n=== stuff\n- a note\n++ Core [1 pts] ++\n[3 pts]"

/-- A creation payload with no command field. -/
def c9Payload : RawPayload :=
  { name := .prim (.jstr "A"), modelCount := .prim (.jint 1) }

/-- The validated input of c9Payload under the server.js defaults. -/
def c9Input : ModelInput := ⟨"A", "", 1, ⟨1, 1, 1⟩, "Unbuilt"⟩

/-- A valid creation payload carrying category, details and progressCount
fields. -/
def c10Payload : RawPayload :=
  { name := .prim (.jstr "Knights"), faction := .prim (.jstr "Empire"),
    modelCount := .prim (.jint 8),
    command := .jobj [("champion", .jint 1), ("musician", .jint 0), ("bannerBearer", .jint 1)],
    state := .prim (.jstr "Build"), category := .prim (.jstr "Unit"),
    details := .prim (.jstr "Lances"), progressCount := .prim (.jint 3) }

/-- The validated input of c10Payload. -/
def c10Input : ModelInput := ⟨"Knights", "Empire", 8, ⟨1, 0, 1⟩, "Build"⟩

theorem safeId_ne_empty (fresh : String) (h : fresh ≠ "") (v : JVal) :
    safeId fresh v ≠ "" := by
  unfold safeId
  split
  · split
    · exact h
    · rename_i hs; exact hs
  · exact h

theorem safeStateV_mem (v : JVal) : safeStateV v ∈ statesList := by
  unfold safeStateV
  split
  · split
    · rename_i hs; simpa using hs
    · decide
  · decide

theorem safeCount_pos (v : JVal) : 0 < safeCount v := by
  unfold safeCount
  split
  · split
    · rename_i hn; exact hn
    · decide
  · decide

theorem safeCmdField_nonneg (p : JPrim) : 0 ≤ safeCmdField p := by
  unfold safeCmdField
  split
  · split
    · rename_i hn; exact hn
    · decide
  · decide

theorem repair_good (fresh now : String) (x : RawItem) (h : fresh ≠ "") :
    GoodStored (repairRecord fresh now x).1 :=
  ⟨safeId_ne_empty fresh h _, safeStateV_mem _, safeCount_pos _,
    safeCmdField_nonneg _, safeCmdField_nonneg _, safeCmdField_nonneg _⟩

theorem repair_roundtrip (f2 n2 : String) (r : StoredRecord) (hg : GoodStored r) :
    (repairRecord f2 n2 (storedToRaw r)).2 = false := by
  obtain ⟨h1, h2, h3, h4, h5, h6⟩ := hg
  have eid : safeId f2 (.prim (.jstr r.id)) = r.id := by simp [safeId, h1]
  have est : safeStateV (.prim (.jstr r.state)) = r.state := by simp [safeStateV, h2]
  have ect : safeCount (.prim (.jint r.modelCount)) = r.modelCount := by simp [safeCount, h3]
  have g1 : jGet (commandToJVal r.command) "champion" = .jint r.command.champion := rfl
  have g2 : jGet (commandToJVal r.command) "musician" = .jint r.command.musician := rfl
  have g3 : jGet (commandToJVal r.command) "bannerBearer" = .jint r.command.bannerBearer := rfl
  have ecm : safeCommandOf (commandToJVal r.command) = r.command := by
    simp [safeCommandOf, g1, g2, g3, safeCmdField, h4, h5, h6]
  show (repairRecordObj f2 n2 (rawFieldsOf (storedToRaw r))).2 = false
  simp only [storedToRaw, rawFieldsOf, repairRecordObj]
  simp [eid, est, ect, ecm, safeStr]

theorem processLine_keeps_empty (pa : String) (cat : String) (us : List DraftEntry)
    (l : List Char) (hw : jsWithCountMatch l = none) (hs : jsSingleMatch l = none) :
    ∃ cat2, processLine pa ⟨none, cat, us⟩ l = ⟨none, cat2, us⟩ := by
  unfold processLine
  cases hsec : jsSectionMatch l with
  | some g => exact ⟨_, rfl⟩
  | none =>
    by_cases hd : isDividerL l = true
    · exact ⟨cat, by simp [hd, flushCurrent]⟩
    · refine ⟨cat, ?_⟩
      simp only [Bool.not_eq_true] at hd
      simp [hd, hw, hs, detailStep]

theorem foldl_keeps_empty (pa : String) (lines : List (List Char)) :
    ∀ (cat : String) (us : List DraftEntry),
    (∀ l ∈ lines, jsWithCountMatch l = none ∧ jsSingleMatch l = none) →
    ∃ cat2, List.foldl (processLine pa) ⟨none, cat, us⟩ lines = ⟨none, cat2, us⟩ := by
  induction lines with
  | nil => exact fun cat _ _ => ⟨cat, rfl⟩
  | cons l rest ih =>
    intro cat us h
    obtain ⟨hw, hs⟩ := h l (List.mem_cons_self l rest)
    obtain ⟨cat2, hstep⟩ := processLine_keeps_empty pa cat us l hw hs
    obtain ⟨cat3, hrest⟩ := ih cat2 us (fun x hx => h x (List.mem_cons_of_mem _ hx))
    exact ⟨cat3, by rw [List.foldl_cons, hstep, hrest]⟩

theorem flush_charZero (st : ParseState) (h : charZero st.units) :
    charZero (flushCurrent st).units := by
  unfold flushCurrent
  split
  · exact h
  · rename_i d heq
    intro u hu hcat
    rcases List.mem_append.mp hu with h1 | h1
    · exact h u h1 hcat
    · have hu2 := List.mem_singleton.mp h1
      subst hu2
      by_cases hd : d.category = "Character"
      · simp [hd]
      · rw [if_neg hd] at hcat
        exact absurd hcat hd

theorem detail_units (st : ParseState) (l : List Char) :
    (detailStep st l).units = st.units := by
  unfold detailStep
  split
  · rfl
  · split <;> rfl

theorem process_charZero (pa : String) (st : ParseState) (l : List Char)
    (h : charZero st.units) : charZero (processLine pa st l).units := by
  unfold processLine
  split
  · exact flush_charZero st h
  · split
    · exact flush_charZero st h
    · split
      · exact flush_charZero st h
      · split
        · split
          · simpa [detail_units] using h
          · split
            · exact h
            · exact flush_charZero st h
        · simpa [detail_units] using h

theorem foldl_charZero (pa : String) (lines : List (List Char)) :
    ∀ (st : ParseState), charZero st.units →
      charZero (List.foldl (processLine pa) st lines).units := by
  induction lines with
  | nil => exact fun _ h => h
  | cons l rest ih =>
    intro st h
    rw [List.foldl_cons]
    exact ih _ (process_charZero pa st l h)

theorem parser_character_zero (text : String) :
    charZero (parseArmyListText text).units := by
  show charZero (flushCurrent ((linesOf text).foldl (processLine (armyScan (linesOf text)))
    ⟨none, "Unit", []⟩)).units
  apply flush_charZero
  apply foldl_charZero
  intro u hu
  cases hu

theorem zod_command_default (dflt : CommandCounts) (p : RawPayload)
    (h : p.command = .prim .undefV) (i : ModelInput)
    (h2 : zodModelInput dflt p = some i) : i.command = dflt := by
  unfold zodModelInput at h2
  split at h2
  · rename_i n f mc cmd st hn hf hc hcmd hst
    rw [h] at hcmd
    simp only [zodCommand, Option.some.injEq] at hcmd
    cases h2
    exact hcmd.symm
  · cases h2

theorem patchList_found (s now id : String) : ∀ (models : List StoredRecord),
    (∃ m ∈ models, m.id = id) →
    ∃ pr, patchList s now id models = some pr ∧ pr.2.state = s ∧ pr.2.updatedAt = now := by
  intro models
  induction models with
  | nil => rintro ⟨m, hm, -⟩; cases hm
  | cons a rest ih =>
    rintro ⟨m, hm, hid⟩
    by_cases ha : a.id = id
    · refine ⟨({ a with state := s, updatedAt := now } :: rest,
        { a with state := s, updatedAt := now }), ?_, rfl, rfl⟩
      simp [patchList, ha]
    · have hrest : ∃ m ∈ rest, m.id = id := by
        rcases List.mem_cons.mp hm with h1 | h1
        · subst h1; exact absurd hid ha
        · exact ⟨m, h1, hid⟩
      obtain ⟨pr, hpr, hs2, hn2⟩ := ih hrest
      exact ⟨(a :: pr.1, pr.2), by simp [patchList, ha, hpr], hs2, hn2⟩

theorem validateEntries_none (dflt : CommandCounts) (e : RawPayload) :
    ∀ body, e ∈ body → zodModelInput dflt e = none → validateEntries dflt body = none := by
  intro body
  induction body with
  | nil => intro h; cases h
  | cons a rest ih =>
    intro hm hz
    rcases List.mem_cons.mp hm with h1 | h1
    · subst h1; simp [validateEntries, hz]
    · have hr := ih h1 hz
      cases hza : zodModelInput dflt a <;> simp [validateEntries, hza, hr]

/-- C1 counterexample: a stored record of category Unit whose
progressCount differs from its modelCount, together with a request for
the non-initial state Build, is accepted by the state route and the
record's state changes — the claim requires this request to be rejected
with the record left unchanged. -/
theorem c1_gate_missing_counterexample :
    c1Record.category = some "Unit" ∧
    c1Record.progressCount ≠ some c1Record.modelCount ∧
    ("Build" : String) ≠ "Unbuilt" ∧
    patchStateRoute [c1Record] "u1" (.jobj [("state", .jstr "Build")]) "t1" =
      .ok [c1Patched] c1Patched ∧
    c1Patched.state = "Build" := by decide

/-- C1 amended: for every stored list, every record in it and every valid
requested state, the state route accepts the request unconditionally and
sets the record's state to the requested value, updating its updatedAt
timestamp; no progress-based gate exists in either server variant. -/
theorem c1_patch_always_accepts (models : List StoredRecord) (id s now : String)
    (hstate : s ∈ statesList) (hmem : ∃ m ∈ models, m.id = id) :
    ∃ l u, patchStateRoute models id (.jobj [("state", .jstr s)]) now = .ok l u ∧
      u.state = s ∧ u.updatedAt = now := by
  obtain ⟨pr, hpr, hs2, hn2⟩ := patchList_found s now id models hmem
  refine ⟨pr.1, pr.2, ?_, hs2, hn2⟩
  have hget : getFieldP [("state", JPrim.jstr s)] "state" = .jstr s := rfl
  have hb : zodStateBody (.jobj [("state", .jstr s)]) = some s := by
    simp [zodStateBody, hget, hstate]
  simp [patchStateRoute, hb, hpr]

/-- C1 witness: the amended theorem applied to a concrete record and the
concrete state Painted. -/
theorem c1_patch_always_accepts_witness :
    ("Painted" : String) ∈ statesList ∧ (∃ m ∈ [c1WitnessRecord], m.id = "w1") ∧
    ∃ l u, patchStateRoute [c1WitnessRecord] "w1" (.jobj [("state", .jstr "Painted")]) "t9" =
      .ok l u ∧ u.state = "Painted" ∧ u.updatedAt = "t9" :=
  ⟨by decide, ⟨c1WitnessRecord, List.mem_singleton.mpr rfl, rfl⟩,
   c1_patch_always_accepts [c1WitnessRecord] "w1" "Painted" "t9" (by decide)
     ⟨c1WitnessRecord, List.mem_singleton.mpr rfl, rfl⟩⟩

/-- C2: evaluation of the code at the failing input.  The Character
creation request the frontend sends passes validation, but the stored
record carries no category or progressCount field at all — the schema
strips them and toStoredModel writes exactly nine fields — so the claimed
invariant is unimplemented, and on reload the frontend displays the
entry as a Unit. -/
theorem c2_character_invariant_unimplemented :
    zodModelInput serverCommandDefault characterCreateRequest = some magicLordInput ∧
    characterCreateRequest.category = .prim (.jstr "Character") ∧
    (toStoredModel "id0" "t0" magicLordInput).category = none ∧
    (toStoredModel "id0" "t0" magicLordInput).progressCount = none ∧
    (objOfStored (toStoredModel "id0" "t0" magicLordInput)).map Prod.fst =
      ["id", "name", "faction", "modelCount", "command", "state", "imageUrl",
       "createdAt", "updatedAt"] ∧
    displayCategory (toStoredModel "id0" "t0" magicLordInput) = "Unit" := by decide

/-- C3: the per-record normalization of readModels is idempotent — on the
output of a first normalization, written back and reloaded, the changed
flag is false for every input record, provided the generated id of the
first run is non-empty, as the id generator guarantees. -/
theorem c3_repair_idempotent (x : RawItem) (fresh now fresh2 now2 : String)
    (h : fresh ≠ "") :
    (repairRecord fresh2 now2 (storedToRaw (repairRecord fresh now x).1)).2 = false :=
  repair_roundtrip fresh2 now2 _ (repair_good fresh now x h)

/-- C3 witness: the idempotence theorem applied to a concrete corrupt
input, a null entry of the data file. -/
theorem c3_repair_idempotent_witness :
    ("id1" : String) ≠ "" ∧
    (repairRecord "id2" "t2" (storedToRaw (repairRecord "id1" "t1" (.notObj .jnull)).1)).2 = false :=
  ⟨by decide, c3_repair_idempotent (.notObj .jnull) "id1" "t1" "id2" "t2" (by decide)⟩

/-- C4 counterexample: a loaded record whose name field is the number
five is rewritten to the name Unknown Unit, yet the changed flag is
false — the flag is not true whenever the repaired record differs from
the input. -/
theorem c4_flag_misses_name_rewrite :
    (repairRecord "f0" "n0" c4Input).2 = false ∧
    (rawFieldsOf c4Input).name = .prim (.jint 5) ∧
    (repairRecord "f0" "n0" c4Input).1.name = "Unknown Unit" ∧
    (rawFieldsOf c4Input).name ≠ .prim (.jstr (repairRecord "f0" "n0" c4Input).1.name) := by
  decide

/-- C4 amended: the changed flag is true exactly when one of the five
checked comparisons differs — id, state, modelCount or faction as
values, or the command field through its JSON serialization; rewrites of
the name, imageUrl, createdAt and updatedAt fields are invisible to it. -/
theorem c4_changed_flag_checked_fields (fresh now : String) (x : RawItem) :
    ((repairRecord fresh now x).2 = true) ↔
      ((rawFieldsOf x).id ≠ .prim (.jstr (repairRecord fresh now x).1.id) ∨
       (rawFieldsOf x).state ≠ .prim (.jstr (repairRecord fresh now x).1.state) ∨
       (rawFieldsOf x).modelCount ≠ .prim (.jint (repairRecord fresh now x).1.modelCount) ∨
       (rawFieldsOf x).faction ≠ .prim (.jstr (repairRecord fresh now x).1.faction) ∨
       jsonStringify (commandToJVal (repairRecord fresh now x).1.command) ≠
         jsonStringify (rawFieldsOf x).command) := by
  unfold repairRecord repairRecordObj
  simp only [Bool.or_eq_true, decide_eq_true_eq, ne_eq]
  tauto

/-- C5: batch import is atomic — whenever any entry of the body fails
the entry schema, the import route rejects the whole request, creates no
record and leaves the persisted list unchanged. -/
theorem c5_import_atomic (store : List StoredRecord) (dflt : CommandCounts)
    (body : List RawPayload) (ids : Nat → String) (now : String) (e : RawPayload)
    (hm : e ∈ body) (hz : zodModelInput dflt e = none) :
    importRoute store dflt body ids now = ⟨store, [], false⟩ := by
  unfold importRoute validateImportList
  have hv := validateEntries_none dflt e body hm hz
  by_cases hl : 1 ≤ body.length ∧ body.length ≤ 1000
  · simp [hl, hv]
  · simp [hl]

/-- C5 witness: the atomicity theorem applied to a five-entry batch whose
third entry has model count zero. -/
theorem c5_import_atomic_witness :
    c5BadEntry ∈ c5Batch ∧ zodModelInput serverCommandDefault c5BadEntry = none ∧
    importRoute [] serverCommandDefault c5Batch (fun _ => "gen") "t" = ⟨[], [], false⟩ :=
  ⟨by decide, by decide,
   c5_import_atomic [] serverCommandDefault c5Batch (fun _ => "gen") "t" c5BadEntry
     (by decide) (by decide)⟩

/-- C6 counterexample: on the scenario input the parser returns one
entry, not two — the Magic Lord line is captured as the army name, being
the first bracket line that is not a marker, and is therefore skipped by
the entry loop. -/
theorem c6_scenario_counterexample :
    parseArmyListText specScenarioInput = ⟨"Magic Lord", [spearmenDraft]⟩ ∧
    (parseArmyListText specScenarioInput).units.length ≠ 2 := by decide

/-- C6 amended: with a genuine army-name line prepended, the scenario
input yields exactly the two entries the claim describes, in order. -/
theorem c6_scenario_with_army_header :
    parseArmyListText armyHeadedScenarioInput =
      ⟨"My Army", [magicLordDraft, spearmenDraft]⟩ := by decide

/-- C7: the parser is total by construction, and on every input none of
whose lines matches an entry-header pattern the returned entry list is
empty — unrecognized lines are skipped, never errors. -/
theorem c7_lenient_no_headers (text : String)
    (h : ∀ l ∈ linesOf text, jsWithCountMatch l = none ∧ jsSingleMatch l = none) :
    (parseArmyListText text).units = [] := by
  obtain ⟨cat2, hf⟩ := foldl_keeps_empty (armyScan (linesOf text)) (linesOf text) "Unit" [] h
  show (flushCurrent ((linesOf text).foldl (processLine (armyScan (linesOf text)))
    ⟨none, "Unit", []⟩)).units = []
  rw [hf]
  rfl

/-- C7 witness: the theorem applied to a concrete text made of markers,
dividers, detail lines and free text only. -/
theorem c7_lenient_no_headers_witness :
    (∀ l ∈ linesOf c7WitnessText, jsWithCountMatch l = none ∧ jsSingleMatch l = none) ∧
    (parseArmyListText c7WitnessText).units = [] :=
  ⟨by decide, c7_lenient_no_headers c7WitnessText (by decide)⟩

/-- C8 counterexample: a sole line matching the explicit-count header is
also captured as the army name, and it does produce an entry, contrary to
the claim that the captured line never does. -/
theorem c8_army_line_entry_counterexample :
    parseArmyListText "5 Spearmen [80 pts]" =
      ⟨"5 Spearmen", [⟨"Unit", "Spearmen", 5, "", ⟨0, 0, 0⟩⟩]⟩ ∧
    (parseArmyListText "5 Spearmen [80 pts]").units ≠ [] := by decide

/-- C8 amended: a line recognized only by the no-count header pattern
whose trimmed name equals the parsed army name is skipped by the entry
loop and changes nothing; the skip does not apply to lines matching the
explicit-count header pattern, and it applies to every such line, not
only the captured one. -/
theorem c8_army_named_line_skipped (pa : String) (st : ParseState) (l g : List Char)
    (h1 : jsSectionMatch l = none) (h2 : isDividerL l = false)
    (h3 : jsWithCountMatch l = none) (h4 : jsSingleMatch l = some g)
    (h5 : startsWithL ['['] l = false) (h6 : String.mk (jsTrimL g) = pa) :
    processLine pa st l = st := by
  simp [processLine, h1, h2, h3, h4, h5, h6]

/-- C8 witness: the skip theorem applied to a concrete army-name line. -/
theorem c8_army_named_line_skipped_witness :
    jsSectionMatch "Empire [2000 pts]".toList = none ∧
    isDividerL "Empire [2000 pts]".toList = false ∧
    jsWithCountMatch "Empire [2000 pts]".toList = none ∧
    jsSingleMatch "Empire [2000 pts]".toList = some "Empire".toList ∧
    startsWithL ['['] "Empire [2000 pts]".toList = false ∧
    String.mk (jsTrimL "Empire".toList) = "Empire" ∧
    processLine "Empire" ⟨none, "Unit", []⟩ "Empire [2000 pts]".toList = ⟨none, "Unit", []⟩ :=
  ⟨by decide, by decide, by decide, by decide, by decide, by decide,
   c8_army_named_line_skipped "Empire" ⟨none, "Unit", []⟩ "Empire [2000 pts]".toList
     "Empire".toList (by decide) (by decide) (by decide) (by decide) (by decide) (by decide)⟩

/-- C9: command defaults differ by entry point.  The validator defaults
every absent command to all-one in the server.js variant and to all-zero
in the part_000 variant; the manual creation form defaults empty command
fields to one for a Unit and sends all-zero for a Character; parser
entries start all-zero and only keyword detection raises a count; and
every Character entry the parser emits has all-zero command. -/
theorem c9_command_defaults :
    (∀ p : RawPayload, p.command = .prim .undefV → ∀ i : ModelInput,
      zodModelInput serverCommandDefault p = some i → i.command = serverCommandDefault) ∧
    (∀ p : RawPayload, p.command = .prim .undefV → ∀ i : ModelInput,
      zodModelInput altCommandDefault p = some i → i.command = altCommandDefault) ∧
    serverCommandDefault = ⟨1, 1, 1⟩ ∧ altCommandDefault = ⟨0, 0, 0⟩ ∧
    buildManualCommand "Unit" "" "" "" =
      .jobj [("champion", .jint 1), ("musician", .jint 1), ("bannerBearer", .jint 1)] ∧
    buildManualCommand "Character" "2" "3" "4" =
      .jobj [("champion", .jint 0), ("musician", .jint 0), ("bannerBearer", .jint 0)] ∧
    (∀ text : String, ∀ u ∈ (parseArmyListText text).units,
      u.category = "Character" → u.command = zeroCommand) ∧
    (parseArmyListText "MyArmy [1000 pts]\n5 Spearmen [80 pts]\n- Shields").units =
      [⟨"Unit", "Spearmen", 5, "Shields", ⟨0, 0, 0⟩⟩] :=
  ⟨fun p hp i h2 => zod_command_default serverCommandDefault p hp i h2,
   fun p hp i h2 => zod_command_default altCommandDefault p hp i h2,
   rfl, rfl, by decide, by decide,
   fun text => parser_character_zero text,
   by decide⟩

/-- C9 witness: the defaults theorem applied to a concrete payload with
no command field and to the concrete Character entry of the scenario. -/
theorem c9_command_defaults_witness :
    c9Payload.command = .prim .undefV ∧
    zodModelInput serverCommandDefault c9Payload = some c9Input ∧
    c9Input.command = serverCommandDefault ∧
    magicLordDraft ∈ (parseArmyListText armyHeadedScenarioInput).units ∧
    magicLordDraft.category = "Character" ∧ magicLordDraft.command = zeroCommand :=
  ⟨rfl, by decide,
   c9_command_defaults.1 c9Payload rfl c9Input (by decide),
   by decide, rfl,
   c9_command_defaults.2.2.2.2.2.2.1 armyHeadedScenarioInput magicLordDraft (by decide) rfl⟩

/-- C10: every record accepted by creation or import is stored with
exactly the nine fields id, name, faction, modelCount, command, state,
imageUrl, createdAt, updatedAt; the category, details and progressCount
fields of the request never appear in it. -/
theorem c10_stored_fields_exact (p : RawPayload) (dflt : CommandCounts) (i : ModelInput)
    (id now : String) (h : zodModelInput dflt p = some i) :
    (objOfStored (toStoredModel id now i)).map Prod.fst =
      ["id", "name", "faction", "modelCount", "command", "state", "imageUrl",
       "createdAt", "updatedAt"] ∧
    "category" ∉ (objOfStored (toStoredModel id now i)).map Prod.fst ∧
    "details" ∉ (objOfStored (toStoredModel id now i)).map Prod.fst ∧
    "progressCount" ∉ (objOfStored (toStoredModel id now i)).map Prod.fst := by
  have hk : (objOfStored (toStoredModel id now i)).map Prod.fst =
      ["id", "name", "faction", "modelCount", "command", "state", "imageUrl",
       "createdAt", "updatedAt"] := rfl
  refine ⟨hk, ?_, ?_, ?_⟩ <;> rw [hk] <;> decide

/-- C10 witness: the theorem applied to a concrete valid payload that
carries category, details and progressCount fields. -/
theorem c10_stored_fields_exact_witness :
    c10Payload.category = .prim (.jstr "Unit") ∧
    c10Payload.details = .prim (.jstr "Lances") ∧
    c10Payload.progressCount = .prim (.jint 3) ∧
    zodModelInput serverCommandDefault c10Payload = some c10Input ∧
    ((objOfStored (toStoredModel "id1" "t1" c10Input)).map Prod.fst =
      ["id", "name", "faction", "modelCount", "command", "state", "imageUrl",
       "createdAt", "updatedAt"] ∧
    "category" ∉ (objOfStored (toStoredModel "id1" "t1" c10Input)).map Prod.fst ∧
    "details" ∉ (objOfStored (toStoredModel "id1" "t1" c10Input)).map Prod.fst ∧
    "progressCount" ∉ (objOfStored (toStoredModel "id1" "t1" c10Input)).map Prod.fst) :=
  ⟨rfl, rfl, rfl, by decide,
   c10_stored_fields_exact c10Payload serverCommandDefault c10Input "id1" "t1" (by decide)⟩
